import Mathlib

/-!
Verification of the asynchronous PDF-ingestion pipeline of the sonqobase-api
repository: a shallow embedding of the event bus, job ledger, concurrency
limiter, the `chunk_text` algorithm and the four pipeline stage listeners,
together with theorems settling the specified properties.

Text is modelled as `List Char`; Python strings' `split`, `strip`, `join`
are embedded one-to-one below.
-/

namespace Sonqo

/-- Python string type, modelled as a list of characters. -/
abbrev Str := List Char

/-- Python whitespace characters (`str.strip` / `str.split()` default set). -/
def pyWs (c : Char) : Bool :=
  c == ' ' || c == '\t' || c == '\n' || c == '\r' || c == '\x0b' || c == '\x0c'

/-- The non-whitespace characters of a string, in order. -/
def nw (l : Str) : Str := l.filter (fun c => !pyWs c)

/-- Python `str.lstrip()`: drop leading whitespace. -/
def lstripWs (l : Str) : Str := l.dropWhile pyWs

/-- Python `str.strip()`: drop leading and trailing whitespace. -/
def pstrip (l : Str) : Str := (lstripWs (lstripWs l).reverse).reverse

/-- Python `str.split(sep)` for a two-character separator `[a, b]` (the only
separators `chunk_text` uses: `"\n\n"` and `". "`): non-overlapping,
left-to-right, keeping empty fields, as in Python. -/
def split2 (a b : Char) : Str → List Str
  | [] => [[]]
  | [c] => [[c]]
  | c :: d :: rest =>
    if c = a ∧ d = b then
      [] :: split2 a b rest
    else
      match split2 a b (d :: rest) with
      | [] => [[c]]
      | h :: t => (c :: h) :: t

/-- Python `sep.join(parts)`. -/
def joinSep (sep : Str) : List Str → Str
  | [] => []
  | [x] => x
  | x :: y :: xs => x ++ sep ++ joinSep sep (y :: xs)

/-- The paragraph separator `"\n\n"` used by `chunk_text`. -/
def nl2 : Str := ['\n', '\n']

/-- Working state of `PdfProcessor.chunk_text`: the finished `chunks`, the
current chunk as a list of paragraph/sentence pieces, and its running size. -/
structure ChunkAcc where
  chunks : List Str
  current_chunk : List Str
  current_size : Nat
deriving DecidableEq

/-- One iteration of the inner sentence loop of `chunk_text` (taken for
paragraphs whose stripped length exceeds the character budget). -/
def sentenceStep (cap : Nat) (st : ChunkAcc) (sentence : Str) : ChunkAcc :=
  if st.current_size + sentence.length > cap then
    { chunks := st.chunks ++
        (if st.current_chunk = [] then [] else [joinSep nl2 st.current_chunk]),
      current_chunk := [sentence],
      current_size := sentence.length }
  else
    { st with
      current_chunk := st.current_chunk ++ [sentence],
      current_size := st.current_size + sentence.length }

/-- One iteration of the paragraph loop of `PdfProcessor.chunk_text`. -/
def paragraphStep (cap : Nat) (st : ChunkAcc) (para0 : Str) : ChunkAcc :=
  let paragraph := pstrip para0
  if paragraph = [] then st
  else if paragraph.length > cap then
    let st1 :=
      if st.current_chunk = [] then st
      else { chunks := st.chunks ++ [joinSep nl2 st.current_chunk],
             current_chunk := [], current_size := 0 }
    (split2 '.' ' ' paragraph).foldl (sentenceStep cap) st1
  else if st.current_size + paragraph.length > cap then
    { chunks := st.chunks ++
        (if st.current_chunk = [] then [] else [joinSep nl2 st.current_chunk]),
      current_chunk := [paragraph],
      current_size := paragraph.length }
  else
    { st with
      current_chunk := st.current_chunk ++ [paragraph],
      current_size := st.current_size + paragraph.length }

/-- Embedding of `PdfProcessor.chunk_text(text, chunk_size)`: split text into chunks of
approximately `chunk_size` tokens (1 token ≈ 4 characters), preferring
paragraph boundaries, falling back to sentence boundaries. -/
def chunk_text (text : Str) (chunk_size : Nat) : List Str :=
  if text = [] ∨ pstrip text = [] then []
  else
    let cap := chunk_size * 4
    let paragraphs := split2 '\n' '\n' text
    let st := paragraphs.foldl (paragraphStep cap) ⟨[], [], 0⟩
    st.chunks ++
      (if st.current_chunk = [] then [] else [joinSep nl2 st.current_chunk])


/-- Non-whitespace content of a `ChunkAcc`: the finished chunks followed by
the pending chunk. -/
def accNw (st : ChunkAcc) : Str :=
  (st.chunks.map nw).flatten ++ (st.current_chunk.map nw).flatten

/-! ### Event bus (`app/infra/event_bus.py`) -/

/-- A listener: runs on the shared state and either completes (no exception)
or raises, keeping the effects it performed before the raise. -/
def Handler (σ : Type) := σ → σ × Option String

/-- The `EventBus`: per-event-type registries of synchronous and asynchronous
listeners (`defaultdict(list)` keyed by the event's concrete type, modelled by
the type's name). -/
structure EventBus (σ : Type) where
  syncListeners : String → List (Handler σ)
  asyncListeners : String → List (Handler σ)

def EventBus.empty (σ : Type) : EventBus σ := ⟨fun _ => [], fun _ => []⟩

/-- Embedding of `EventBus.subscribe(event_type, async_handler)`: append the listener to
the chosen registry for `etype`. -/
def EventBus.subscribe {σ : Type} (bus : EventBus σ) (etype : String)
    (asyncHandler : Bool) (h : Handler σ) : EventBus σ :=
  if asyncHandler then
    { bus with asyncListeners := fun t =>
        if t = etype then bus.asyncListeners t ++ [h] else bus.asyncListeners t }
  else
    { bus with syncListeners := fun t =>
        if t = etype then bus.syncListeners t ++ [h] else bus.syncListeners t }

/-- One guarded listener call: both the `try/except` around each sync listener
in `publish` and `_safe_async_call` catch the listener's exception (logging
it) and keep the state it produced. -/
def runIsolated {σ : Type} (s : σ) (h : Handler σ) : σ := (h s).1

/-- Embedding of `EventBus.publish`: run the sync listeners registered for the event's
concrete type in registration order, then the async fan-out
(`asyncio.gather(..., return_exceptions=True)`; the single-threaded loop runs
the guarded coroutines in registration order, modelled sequentially). Every
listener call is guarded, so `publish` itself always returns normally. -/
def EventBus.publish {σ : Type} (bus : EventBus σ) (etype : String) (s : σ) : σ :=
  (bus.asyncListeners etype).foldl runIsolated
    ((bus.syncListeners etype).foldl runIsolated s)

/-- Instrumentation for the bus theorems: a listener that appends its `tag` to
the state log and then raises iff `fails`. -/
def tagHandler (tag : Nat) (fails : Bool) : Handler (List Nat) :=
  fun log => (log ++ [tag], if fails then some "handler error" else none)

/-- A bus with the given sync and async listener specs (tag, fails) registered
for `etype`, in order. -/
def mkTagBus (etype : String) (syncSpec asyncSpec : List (Nat × Bool)) :
    EventBus (List Nat) :=
  asyncSpec.foldl (fun b p => b.subscribe etype true (tagHandler p.1 p.2))
    (syncSpec.foldl (fun b p => b.subscribe etype false (tagHandler p.1 p.2))
      (EventBus.empty _))
/-! ### Job ledger (`app/infra/job_repository.py`) -/

/-- The stage-counter `result` map of a job (the keys the pipeline writes). -/
structure RMap where
  pages_processed : Option Nat
  total_pages : Option Nat
  chunks_created : Option Nat
  embeddings_generated : Option Nat
  vectors_stored : Option Nat
deriving DecidableEq

def RMap.empty : RMap := ⟨none, none, none, none, none⟩

/-- One ledger record (the job a pipeline run concerns). `updatedAt` /
`completedAt` carry a logical clock standing for `datetime.now()`. The
`chunk_size`, `plan_name`, `filename` and `user_pdf_pages` fields model the
`metadata` entries the pipeline reads (`user_pdf_pages` is the optional
`pdf_pages` key of `metadata.user_metadata`, the only user-metadata key any
stage consults). -/
structure Job where
  status : String
  progress : Int
  chunk_size : Nat
  plan_name : String
  filename : Option String
  user_pdf_pages : Option Nat
  result : RMap
  error : Option String
  updatedAt : Nat
  completedAt : Option Nat
deriving DecidableEq

/-- Embedding of `JobRepository.update_status(job_id, status, progress, result, error)`:
a `$set` built field-by-field; a `completed` status forces `progress = 100`
and sets `completed_at`, a `failed` status sets `completed_at` only. -/
def update_status (j : Job) (status : String) (progress : Option Int)
    (result : Option RMap) (error : Option String) (now : Nat) : Job :=
  let j1 := { j with status := status, updatedAt := now }
  let j2 := match progress with
    | some p => { j1 with progress := p }
    | none => j1
  let j3 := match result with
    | some r => { j2 with result := r }
    | none => j2
  let j4 := match error with
    | some e => { j3 with error := some e }
    | none => j3
  let j5 := if status = "completed" then
      { j4 with completedAt := some now, progress := 100 }
    else j4
  if status = "failed" then { j5 with completedAt := some now } else j5

/-- Embedding of `JobRepository.increment_progress(job_id, delta, status, result)`:
atomic `$inc` on progress; `status` and `result` are applied only when truthy
(Python `if status:` / `if result:`). -/
def increment_progress (j : Job) (delta : Int) (status : Option String)
    (result : Option RMap) (now : Nat) : Job :=
  let j1 := { j with progress := j.progress + delta, updatedAt := now }
  let j2 := match status with
    | some s => if s = "" then j1 else { j1 with status := s }
    | none => j1
  match result with
  | some r => if r = RMap.empty then j2 else { j2 with result := r }
  | none => j2

/-! ### Concurrency limiter (`app/infra/pdf_concurrency_limiter.py`) -/

/-- Python `str.title()` over ASCII letters: uppercase a letter that does not
follow a letter, lowercase one that does. -/
def pyTitleAux : Bool → List Char → List Char
  | _, [] => []
  | prevAlpha, c :: cs =>
    let c' := if c.isAlpha then (if prevAlpha then c.toLower else c.toUpper) else c
    c' :: pyTitleAux c.isAlpha cs

def pyTitle (s : String) : String := ⟨pyTitleAux false s.data⟩

/-- Embedding of `PdfConcurrencyLimiter.get_limit`: the `LIMITS` lookup on the title-cased plan
name, falling back to the `Free` capacity 1. -/
def get_limit (plan_name : String) : Nat :=
  let normalized := pyTitle plan_name
  if normalized = "Free" then 1
  else if normalized = "Starter" then 2
  else if normalized = "Pro" then 5
  else 1

/-- The `ValueError` message raised when `acquire` times out. -/
def concurrencyMsg (plan_name : String) : String :=
  let normalized := pyTitle plan_name
  let limit := get_limit plan_name
  "Demasiadas cargas de PDF concurrentes. El plan '" ++ normalized ++
    "' permite un máximo de " ++ toString limit ++
    " cargas simultáneas. Por favor espera a que se completen las cargas actuales o actualiza tu plan."

/-! ### Pipeline events and state (`app/domain/events.py`, listeners) -/

/-- Chunk metadata built by the chunking listener, plus the splatted user
metadata — of which only an optional `pdf_pages` key is ever read. -/
structure ChunkMeta where
  chunk_index : Nat
  chunk_size : Nat
  page_number : Nat
  total_pages : Nat
  pdf_filename : Option String
  pdf_pages : Option Nat
deriving DecidableEq

/-- An embedding vector returned by the provider (opaque payload). -/
abbrev Vec := List Int

/-- The pipeline's domain events. Correlation ids (job, user, project,
collection) are omitted: the model follows one job. -/
inductive Ev where
  | pageExtracted (page_number total_pages : Nat) (page_text : Str)
  | chunked (chunks : List Str) (chunk_metadata : List ChunkMeta)
  | embeddingsGenerated (embeddings : List Vec) (chunks : List Str)
      (metadata : List ChunkMeta)
  | ingestCompleted (pages_processed chunks_created : Nat)
  | ingestFailed (stage : String) (error_message : String)
deriving DecidableEq

/-- External collaborators fixed for one run: whether the job's blob is in
GridFS, whether the PDF parses and its page texts, the embedding provider
(which may raise), and whether the vector store can resolve the project. -/
structure Env where
  pdfFound : Bool
  parseOk : Bool
  pages : List Str
  embedBatch : List Str → Except String (List Vec)
  projectFound : Bool

/-- Mutable world of one run: the job record, the ledger write log, the
published events, the job's tier semaphore value with acquire/release
counters, the vector-store rows, and a logical clock. -/
structure PState where
  job : Job
  log : List Job
  published : List Ev
  sem : Int
  acqOk : Nat
  rel : Nat
  vectors : List (Str × Vec × ChunkMeta)
  clock : Nat
deriving DecidableEq

/-- A ledger `update_status` write performed by a stage handler. -/
def stUpdate (s : PState) (status : String) (progress : Option Int)
    (result : Option RMap) (error : Option String) : PState :=
  let j := update_status s.job status progress result error s.clock
  { s with job := j, log := s.log ++ [j], clock := s.clock + 1 }

/-- A ledger `increment_progress` write performed by a stage handler. -/
def stIncrement (s : PState) (delta : Int) (status : Option String)
    (result : Option RMap) : PState :=
  let j := increment_progress s.job delta status result s.clock
  { s with job := j, log := s.log ++ [j], clock := s.clock + 1 }

/-- Record an event on the bus's published stream. -/
def pub (s : PState) (e : Ev) : PState :=
  { s with published := s.published ++ [e] }

/-- Python `metadata[0].get('pdf_pages', 0) if metadata else 0`. -/
def metaPP (md : List ChunkMeta) : Nat :=
  match md with
  | [] => 0
  | m :: _ => m.pdf_pages.getD 0

/-! ### Stage listeners, innermost first -/

/-- Embedding of `vector_storage_listener.on_embeddings_generated`: mark `storing`, write
one row per `zip(chunks, embeddings, metadata)` triple, mark the job
`completed` and publish `PdfIngestCompletedEvent`; any raise inside the `try`
(missing project, empty document list) marks the job `failed` and publishes
`PdfIngestFailedEvent{stage="storage"}`. -/
def on_embeddings_generated (env : Env) (embeddings : List Vec)
    (chunks : List Str) (metadata : List ChunkMeta) (s : PState) : PState :=
  let s1 := stUpdate s "storing" (some 95) none none
  if ¬ env.projectFound then
    let msg := "Project not found"
    let s2 := stUpdate s1 "failed" none none
      (some ("Vector storage failed: " ++ msg))
    pub s2 (.ingestFailed "storage" msg)
  else
    let documents := chunks.zip (embeddings.zip metadata)
    if documents = [] then
      let msg := "No documents to insert"
      let s2 := stUpdate s1 "failed" none none
        (some ("Vector storage failed: " ++ msg))
      pub s2 (.ingestFailed "storage" msg)
    else
      let inserted := documents.length
      let s2 := { s1 with vectors := s1.vectors ++ documents }
      let s3 := stUpdate s2 "completed" (some 100)
        (some ⟨some (metaPP metadata), none, some chunks.length,
          some embeddings.length, some inserted⟩) none
      pub s3 (.ingestCompleted (metaPP metadata) chunks.length)

/-- One iteration of the embedding batch loop at start index `i`
(`batch = chunks[i:i+10]`): skipped once a previous batch has raised; on a
provider failure the exception is recorded with the state reached so far
(the cost-monitoring block swallows its own errors and is not modelled).
After a successful batch, `update_status` publishes cumulative progress
`60 + int((i / n) * 30)`. -/
def embedStep (env : Env) (chunks : List Str) (n pp : Nat)
    (st : Except (String × PState) (PState × List Vec)) (i : Nat) :
    Except (String × PState) (PState × List Vec) :=
  match st with
  | .error e => .error e
  | .ok (s, acc) =>
    match env.embedBatch ((chunks.drop i).take 10) with
    | .error e => .error (e, s)
    | .ok vs =>
      let acc2 := acc ++ vs
      let progress : Int := 60 + ((i * 30) / n : Nat)
      let s2 := stUpdate s "generating_embeddings" (some progress)
        (some ⟨some pp, none, some n, some acc2.length, none⟩) none
      .ok (s2, acc2)

/-- The batch loop `for i in range(0, len(chunks), 10)` of the embedding
listener (`n = len(chunks)`, `pp` the `pdf_pages` default); the raise of a
failing batch aborts the loop, modelled by the error short-circuit of
`embedStep`. -/
def embedBatches (env : Env) (n pp : Nat) (chunks : List Str) (s : PState) :
    Except (String × PState) (PState × List Vec) :=
  ((List.range n).filter (fun i => i % 10 = 0)).foldl
    (embedStep env chunks n pp) (.ok (s, []))

/-- Embedding of `embedding_generation_listener.on_pdf_chunked`: mark
`generating_embeddings`, embed in batches of 10 with cumulative progress
60→90, publish `EmbeddingsGeneratedEvent` (whose sole listener is the storage
stage); on a provider raise, mark the job `failed` and publish
`PdfIngestFailedEvent{stage="embedding"}`. -/
def on_pdf_chunked (env : Env) (chunks : List Str)
    (chunk_metadata : List ChunkMeta) (s : PState) : PState :=
  let s1 := stUpdate s "generating_embeddings" (some 60) none none
  let pp := metaPP chunk_metadata
  let n := chunks.length
  match embedBatches env n pp chunks s1 with
  | .error (e, s2) =>
    let s3 := stUpdate s2 "failed" none none
      (some ("Embedding generation failed: " ++ e))
    pub s3 (.ingestFailed "embedding" e)
  | .ok (s2, all_embeddings) =>
    let s3 := stUpdate s2 "generating_embeddings" (some 90)
      (some ⟨some pp, none, some n, some all_embeddings.length, none⟩) none
    let s4 := pub s3 (.embeddingsGenerated all_embeddings chunks chunk_metadata)
    on_embeddings_generated env all_embeddings chunks chunk_metadata s4

/-- Embedding of `pdf_chunking_listener.on_pdf_page_extracted`: skip pages with empty text
or an empty chunk list (no event, no error); otherwise publish
`PdfChunkedEvent` (whose sole listener is the embedding stage) and then
`increment_progress` in the 40→60 band. -/
def on_pdf_page_extracted (env : Env) (page_number total_pages : Nat)
    (page_text : Str) (s : PState) : PState :=
  if page_text.length = 0 then s
  else
    let chunks := chunk_text page_text s.job.chunk_size
    if chunks = [] then s
    else
      let chunk_metadata := chunks.enum.map (fun p =>
        ChunkMeta.mk p.1 p.2.length page_number total_pages
          s.job.filename s.job.user_pdf_pages)
      let s1 := pub s (.chunked chunks chunk_metadata)
      let s2 := on_pdf_chunked env chunks chunk_metadata s1
      let delta : Int := if total_pages > 0 then ((20 / total_pages : Nat) : Int) else 1
      stIncrement s2 delta (some "chunking")
        (some ⟨some page_number, some total_pages, some chunks.length, none, none⟩)

/-- The page loop of the extraction listener: publish `PdfPageExtractedEvent`
(whose sole listener is the chunking stage, run to completion by the awaited
`publish`), then `increment_progress` in the 10→40 band. -/
def extractLoop (env : Env) (total : Nat) :
    List (Nat × Str) → PState → PState
  | [], s => s
  | (pn, text) :: rest, s =>
    let s1 := pub s (.pageExtracted pn total text)
    let s2 := on_pdf_page_extracted env pn total text s1
    let delta : Int := if total > 0 then ((30 / total : Nat) : Int) else 1
    let s3 := stIncrement s2 delta (some "extracting_text")
      (some ⟨some pn, some total, none, none, none⟩)
    extractLoop env total rest s3

/-- Embedding of `pdf_text_extraction_listener.on_pdf_saved_to_gridfs`: the extraction
stage. The job record is assumed present (a missing job returns before the
`try` and touches nothing). `acquire` succeeds iff the tier's semaphore has a
free slot (no concurrent release can arrive within the 100 ms bounded wait in
a single-run model); on timeout the raised `ValueError` is caught, the job is
marked `failed`, and the listener returns early — through the `finally`
block, which calls `release` on every exit path of the `try`. -/
def on_pdf_saved_to_gridfs (env : Env) (s : PState) : PState :=
  let plan := s.job.plan_name
  let sBody :=
    if s.sem > 0 then
      let sA := { s with sem := s.sem - 1, acqOk := s.acqOk + 1 }
      if ¬ env.pdfFound then
        let msg := "PDF not found despite PdfSavedToGridFSEvent"
        let sF := stUpdate sA "failed" none none (some msg)
        pub sF (.ingestFailed "extraction" msg)
      else
        let s1 := stUpdate sA "extracting_text" (some 10) none none
        if ¬ env.parseOk then
          let msg := "Failed to open PDF"
          let sF := stUpdate s1 "failed" none none (some msg)
          pub sF (.ingestFailed "extraction" msg)
        else
          extractLoop env env.pages.length
            (env.pages.enum.map (fun p => (p.1 + 1, p.2))) s1
    else
      stUpdate s "failed" none none (some (concurrencyMsg plan))
  { sBody with sem := sBody.sem + 1, rel := sBody.rel + 1 }

/-! ### PDF upload validation (`app/strategies/pdf_ingest_strategy.py`) -/

/-- An `UploadFile`: the underlying stream's bytes, the current read offset,
and the optional `size` attribute. -/
structure UploadSource where
  content : List Nat
  pos : Nat
  sizeAttr : Option Nat
deriving DecidableEq

/-- Embedding of `PdfIngestStrategy.validate(user, plan, source)`: uses `source.size` when
the attribute is present and truthy, otherwise reads the stream to measure it
and seeks back to offset 0; raises `ValueError` when the size exceeds the
plan's PDF limit in MB. Returns the source's final stream state alongside the
outcome. -/
def validate (source : UploadSource) (pdf_max_size_mb : Nat) :
    UploadSource × Except String Unit :=
  let measured :=
    match source.sizeAttr with
    | some n =>
      if n ≠ 0 then (source, n)
      else ({ source with pos := 0 }, source.content.length - source.pos)
    | none => ({ source with pos := 0 }, source.content.length - source.pos)
  if measured.2 > pdf_max_size_mb * 1048576 then
    (measured.1, .error "PDF too large")
  else
    (measured.1, .ok ())


/-! ### Concrete fixtures and claim-level predicates -/

/-- A freshly created job record (`JobRepository.create`) with the default
`chunk_size=500` and the `Free` plan. -/
def freshJob : Job :=
  { status := "queued", progress := 0, chunk_size := 500, plan_name := "Free",
    filename := some "doc.pdf", user_pdf_pages := none, result := RMap.empty,
    error := none, updatedAt := 0, completedAt := none }

/-- The world at the moment `PdfSavedToGridFSEvent` is delivered: fresh job,
nothing published, `sem` free slots in the job's tier pool. -/
def startState (sem : Int) : PState :=
  { job := freshJob, log := [], published := [], sem := sem, acqOk := 0,
    rel := 0, vectors := [], clock := 1 }

/-- A run in which every external collaborator succeeds. -/
def happyEnv (pages : List Str) : Env :=
  { pdfFound := true, parseOk := true, pages := pages,
    embedBatch := fun batch => .ok (batch.map fun c => [(c.length : Int)]),
    projectFound := true }

/-- The extraction run of a 1-page PDF whose tier pool is exhausted
(`sem = 0`), so `acquire` times out. -/
def exhaustedRun : PState :=
  on_pdf_saved_to_gridfs (happyEnv ["Hello world".toList]) (startState 0)

/-- A fully successful extraction run of a 1-page PDF. -/
def onePageRun : PState :=
  on_pdf_saved_to_gridfs (happyEnv ["Hello world".toList]) (startState 1)

/-- A fully successful extraction run of a 3-page PDF (`chunk_size = 500`). -/
def threePageRun : PState :=
  on_pdf_saved_to_gridfs
    (happyEnv ["Page one text".toList, "Page two text".toList,
      "Page three".toList]) (startState 1)

/-- Position of a status in the pipeline chain
`queued → extracting_text → chunking → generating_embeddings → storing →
completed`. -/
def statusRank (s : String) : Nat :=
  if s = "queued" then 0
  else if s = "extracting_text" then 1
  else if s = "chunking" then 2
  else if s = "generating_embeddings" then 3
  else if s = "storing" then 4
  else 5

/-- One ledger transition allowed by the spec's state machine: `failed` is
reachable from any non-terminal state, every other move is forward along the
chain, and no write leaves a terminal state. -/
def okStep (a b : String) : Bool :=
  if a = "completed" ∨ a = "failed" then decide (a = b)
  else decide (b = "failed" ∨ statusRank a ≤ statusRank b)

/-- Every consecutive pair of recorded statuses is an allowed transition. -/
def forwardOnly : List String → Bool
  | [] => true
  | [_] => true
  | a :: b :: rest => okStep a b && forwardOnly (b :: rest)

/-- The list is strictly increasing. -/
def strictIncr : List Int → Bool
  | [] => true
  | [_] => true
  | a :: b :: rest => decide (a < b) && strictIncr (b :: rest)

/-- Recognizer for `PdfPageExtractedEvent`. -/
def Ev.isPageExtracted : Ev → Bool
  | .pageExtracted .. => true
  | _ => false

/-- Recognizer for `PdfIngestFailedEvent`. -/
def Ev.isIngestFailed : Ev → Bool
  | .ingestFailed .. => true
  | _ => false

/-- The pipeline state carried inside an `embedBatches` outcome (the partial
effects survive the raise). -/
def batchState : Except (String × PState) (PState × List Vec) → PState
  | .error (_, s) => s
  | .ok (s, _) => s

/-- A run whose embedding provider raises on every batch. -/
def failingEnv : Env :=
  { pdfFound := true, parseOk := true, pages := ["Some page".toList],
    embedBatch := fun _ => .error "boom", projectFound := true }

/-! ## Theorems -/

/-! ### Lemmas: `splitOn`, `joinSep`, `nw` -/

theorem split2_ne_nil (a b : Char) (l : Str) : split2 a b l ≠ [] := by
  match l with
  | [] => simp [split2]
  | [c] => simp [split2]
  | c :: d :: rest =>
    rw [split2]
    split
    · simp
    · split <;> simp

theorem joinSep_cons_ne (sep x : Str) (xs : List Str) (h : xs ≠ []) :
    joinSep sep (x :: xs) = x ++ sep ++ joinSep sep xs := by
  match xs with
  | [] => exact absurd rfl h
  | y :: ys => rfl

theorem joinSep_cons_head (sep : Str) (c : Char) (h : Str) (t : List Str) :
    joinSep sep ((c :: h) :: t) = c :: joinSep sep (h :: t) := by
  match t with
  | [] => rfl
  | y :: ys => simp [joinSep]

theorem joinSep_split2 (a b : Char) (l : Str) :
    joinSep [a, b] (split2 a b l) = l := by
  match l with
  | [] => rfl
  | [c] => rfl
  | c :: d :: rest =>
    rw [split2]
    split
    case isTrue hcd =>
      rw [joinSep_cons_ne _ _ _ (split2_ne_nil a b rest),
        joinSep_split2 a b rest, hcd.1, hcd.2]
      simp
    case isFalse hcd =>
      have ih := joinSep_split2 a b (d :: rest)
      match hs : split2 a b (d :: rest) with
      | [] => exact absurd hs (split2_ne_nil a b (d :: rest))
      | h :: t =>
        rw [hs] at ih
        rw [joinSep_cons_head, ih]

theorem nw_append (a b : Str) : nw (a ++ b) = nw a ++ nw b :=
  List.filter_append ..

theorem nw_joinSep (sep : Str) (hsep : nw sep = []) (ps : List Str) :
    nw (joinSep sep ps) = (ps.map nw).flatten := by
  match ps with
  | [] => simp [joinSep, nw]
  | [x] => simp [joinSep]
  | x :: y :: ys =>
    rw [joinSep_cons_ne _ _ _ (by simp), nw_append, nw_append, hsep,
      nw_joinSep sep hsep (y :: ys)]
    simp

theorem nw_dropWhile (l : Str) : nw (l.dropWhile pyWs) = nw l := by
  induction l with
  | nil => rfl
  | cons c rest ih =>
    by_cases h : pyWs c
    · have hd : (c :: rest).dropWhile pyWs = rest.dropWhile pyWs := by
        simp [List.dropWhile_cons, h]
      rw [hd, ih]
      simp [nw, List.filter_cons, h]
    · simp [List.dropWhile_cons, h]

theorem nw_reverse (l : Str) : nw l.reverse = (nw l).reverse :=
  List.filter_reverse ..

theorem nw_pstrip (l : Str) : nw (pstrip l) = nw l := by
  unfold pstrip lstripWs
  rw [nw_reverse, nw_dropWhile, nw_reverse, List.reverse_reverse, nw_dropWhile]

theorem nw_of_pstrip_nil {l : Str} (h : pstrip l = []) : nw l = [] := by
  rw [← nw_pstrip, h]
  rfl

theorem nw_nl2 : nw nl2 = [] := rfl
theorem accNw_pack (chunks cc : List Str) (cs : Nat) :
    (((chunks ++ (if cc = [] then [] else [joinSep nl2 cc])).map nw).flatten
      : Str) = accNw ⟨chunks, cc, cs⟩ := by
  by_cases h : cc = []
  · simp [h, accNw]
  · simp [h, accNw, nw_joinSep nl2 nw_nl2]

theorem nw_flatten (ls : List Str) : nw ls.flatten = (ls.map nw).flatten := by
  induction ls with
  | nil => rfl
  | cons x xs ih => simp [nw_append, ih]

theorem accNw_paragraphStep (cap : Nat) (st : ChunkAcc) (p : Str)
    (h : (pstrip p).length ≤ cap) :
    accNw (paragraphStep cap st p) = accNw st ++ nw p := by
  rw [← nw_pstrip p]
  simp only [paragraphStep]
  by_cases h0 : pstrip p = []
  · rw [if_pos h0, h0]
    simp [nw]
  · rw [if_neg h0, if_neg (by omega : ¬ (pstrip p).length > cap)]
    by_cases h1 : st.current_size + (pstrip p).length > cap
    · rw [if_pos h1]
      by_cases h2 : st.current_chunk = []
      · simp [accNw, h2]
      · simp [accNw, h2, nw_joinSep nl2 nw_nl2]
    · rw [if_neg h1]
      simp [accNw]

theorem accNw_foldl (cap : Nat) (ps : List Str) (st : ChunkAcc)
    (h : ∀ p ∈ ps, (pstrip p).length ≤ cap) :
    accNw (ps.foldl (paragraphStep cap) st) = accNw st ++ (ps.map nw).flatten := by
  induction ps generalizing st with
  | nil => simp
  | cons p ps ih =>
    rw [List.foldl_cons, ih _ (fun q hq => h q (List.mem_cons_of_mem _ hq)),
      accNw_paragraphStep cap st p (h p (List.mem_cons_self ..))]
    simp [List.append_assoc]

/-- Provided no stripped paragraph exceeds the character budget `chunk_size * 4`
(so the sentence-splitting fallback never runs), `chunk_text` preserves the
sequence of non-whitespace characters of its input. -/
theorem chunk_text_nw (text : Str) (chunk_size : Nat)
    (h : ∀ p ∈ split2 '\n' '\n' text, (pstrip p).length ≤ chunk_size * 4) :
    nw (chunk_text text chunk_size).flatten = nw text := by
  simp only [chunk_text]
  by_cases h0 : text = [] ∨ pstrip text = []
  · rw [if_pos h0]
    rcases h0 with h0 | h0
    · simp [h0, nw]
    · rw [nw_of_pstrip_nil h0]
      rfl
  · rw [if_neg h0, nw_flatten, accNw_pack, accNw_foldl _ _ _ h]
    have hj := nw_joinSep nl2 nw_nl2 (split2 '\n' '\n' text)
    rw [show nl2 = ['\n', '\n'] from rfl, joinSep_split2] at hj
    simp [accNw, ← hj]

/-! ### Lemmas: event bus -/

theorem subscribe_fold_sync (etype : String) (ss : List (Nat × Bool))
    (b : EventBus (List Nat)) (t : String) :
    ((ss.foldl (fun b p => b.subscribe etype false (tagHandler p.1 p.2))
        b).syncListeners t)
      = b.syncListeners t ++
        (if t = etype then ss.map (fun p => tagHandler p.1 p.2) else []) := by
  induction ss generalizing b with
  | nil => simp
  | cons p ps ih =>
    rw [List.foldl_cons, ih]
    by_cases h : t = etype <;> simp [EventBus.subscribe, h]

theorem subscribe_fold_sync_keeps_async (etype : String) (ss : List (Nat × Bool))
    (b : EventBus (List Nat)) (t : String) :
    ((ss.foldl (fun b p => b.subscribe etype false (tagHandler p.1 p.2))
        b).asyncListeners t) = b.asyncListeners t := by
  induction ss generalizing b with
  | nil => rfl
  | cons p ps ih => rw [List.foldl_cons, ih]; rfl

theorem subscribe_fold_async (etype : String) (as : List (Nat × Bool))
    (b : EventBus (List Nat)) (t : String) :
    ((as.foldl (fun b p => b.subscribe etype true (tagHandler p.1 p.2))
        b).asyncListeners t)
      = b.asyncListeners t ++
        (if t = etype then as.map (fun p => tagHandler p.1 p.2) else []) := by
  induction as generalizing b with
  | nil => simp
  | cons p ps ih =>
    rw [List.foldl_cons, ih]
    by_cases h : t = etype <;> simp [EventBus.subscribe, h]

theorem subscribe_fold_async_keeps_sync (etype : String) (as : List (Nat × Bool))
    (b : EventBus (List Nat)) (t : String) :
    ((as.foldl (fun b p => b.subscribe etype true (tagHandler p.1 p.2))
        b).syncListeners t) = b.syncListeners t := by
  induction as generalizing b with
  | nil => rfl
  | cons p ps ih => rw [List.foldl_cons, ih]; rfl

theorem runIsolated_fold_tags (spec : List (Nat × Bool)) (log : List Nat) :
    (spec.map (fun p => tagHandler p.1 p.2)).foldl runIsolated log
      = log ++ spec.map Prod.fst := by
  induction spec generalizing log with
  | nil => simp
  | cons p ps ih =>
    simp only [List.map_cons, List.foldl_cons, runIsolated, tagHandler]
    rw [ih]
    simp

/-! ### Lemmas: ledger writes and the embedding batch loop -/

theorem stUpdate_published (s : PState) (st : String) (p : Option Int)
    (r : Option RMap) (e : Option String) :
    (stUpdate s st p r e).published = s.published := rfl

theorem stUpdate_vectors (s : PState) (st : String) (p : Option Int)
    (r : Option RMap) (e : Option String) :
    (stUpdate s st p r e).vectors = s.vectors := rfl

theorem update_status_failed (j : Job) (msg : String) (now : Nat) :
    update_status j "failed" none none (some msg) now
      = { j with
          status := "failed"
          error := some msg
          updatedAt := now
          completedAt := some now } := rfl

theorem stUpdate_failed_job (s : PState) (msg : String) :
    (stUpdate s "failed" none none (some msg)).job
      = { s.job with
          status := "failed"
          error := some msg
          updatedAt := s.clock
          completedAt := some s.clock } := rfl

theorem embedStep_frame (env : Env) (chunks : List Str) (n pp : Nat)
    (st : Except (String × PState) (PState × List Vec)) (i : Nat) :
    (batchState (embedStep env chunks n pp st i)).published
        = (batchState st).published ∧
    (batchState (embedStep env chunks n pp st i)).vectors
        = (batchState st).vectors := by
  cases st with
  | error e => exact ⟨rfl, rfl⟩
  | ok p =>
    obtain ⟨s, acc⟩ := p
    unfold embedStep
    cases henv : env.embedBatch ((chunks.drop i).take 10) with
    | error e => simp [henv, batchState]
    | ok vs => simp [henv, batchState, stUpdate_published, stUpdate_vectors]

theorem embedBatches_frame_aux (env : Env) (chunks : List Str) (n pp : Nat)
    (is : List Nat) (st : Except (String × PState) (PState × List Vec)) :
    (batchState (is.foldl (embedStep env chunks n pp) st)).published
        = (batchState st).published ∧
    (batchState (is.foldl (embedStep env chunks n pp) st)).vectors
        = (batchState st).vectors := by
  induction is generalizing st with
  | nil => exact ⟨rfl, rfl⟩
  | cons i is ih =>
    rw [List.foldl_cons]
    have h1 := embedStep_frame env chunks n pp st i
    have h2 := ih (embedStep env chunks n pp st i)
    exact ⟨h2.1.trans h1.1, h2.2.trans h1.2⟩

theorem embedBatches_frame (env : Env) (n pp : Nat) (chunks : List Str)
    (s : PState) :
    (batchState (embedBatches env n pp chunks s)).published = s.published ∧
    (batchState (embedBatches env n pp chunks s)).vectors = s.vectors := by
  unfold embedBatches
  exact embedBatches_frame_aux env chunks n pp _ (.ok (s, []))

/-! ## Claim theorems -/

/-- C1: the claimed invariant — `release` is invoked exactly once per
successful `acquire` and never without one — fails on the code: in the run
whose tier pool is exhausted (`sem = 0`), `acquire` times out and the listener
returns through its `finally` block, which still calls `release`. The run
performs 0 successful acquires yet 1 release, leaving the semaphore value at
1: a phantom slot that permanently raises the tier's capacity. -/
theorem release_without_acquire_on_timeout :
    exhaustedRun.acqOk = 0 ∧ exhaustedRun.rel = 1 ∧ exhaustedRun.sem = 1 :=
  ⟨rfl, rfl, rfl⟩

/-- C3: if the embedding batch loop raises (`embedBatches` returns an error),
the embedding listener publishes exactly one `IngestFailed{stage="embedding"}`
event, marks the job `failed` with its `error` set, publishes no
`EmbeddingsGenerated` event, and performs no vector-store write. -/
theorem embedding_failure_publishes_single_failure (env : Env)
    (chunks : List Str) (md : List ChunkMeta) (s : PState) {e : String}
    {s2 : PState}
    (h : embedBatches env chunks.length (metaPP md) chunks
        (stUpdate s "generating_embeddings" (some 60) none none)
        = .error (e, s2)) :
    (on_pdf_chunked env chunks md s).published
        = s.published ++ [Ev.ingestFailed "embedding" e] ∧
    (on_pdf_chunked env chunks md s).job.status = "failed" ∧
    (on_pdf_chunked env chunks md s).job.error
        = some ("Embedding generation failed: " ++ e) ∧
    (on_pdf_chunked env chunks md s).vectors = s.vectors := by
  have hframe := embedBatches_frame env chunks.length (metaPP md) chunks
    (stUpdate s "generating_embeddings" (some 60) none none)
  rw [h] at hframe
  simp only [batchState, stUpdate_published, stUpdate_vectors] at hframe
  simp only [on_pdf_chunked]
  rw [h]
  simp [pub, stUpdate_failed_job, stUpdate_published, stUpdate_vectors,
    hframe.1, hframe.2]

/-- Witness for C3: a provider that raises `"boom"` on the first batch. -/
theorem embedding_failure_publishes_single_failure_witness :
    (on_pdf_chunked failingEnv ["chunk one".toList] [] (startState 1)).published
        = (startState 1).published ++ [Ev.ingestFailed "embedding" "boom"] ∧
    (on_pdf_chunked failingEnv ["chunk one".toList] [] (startState 1)).job.status
        = "failed" ∧
    (on_pdf_chunked failingEnv ["chunk one".toList] [] (startState 1)).job.error
        = some ("Embedding generation failed: " ++ "boom") ∧
    (on_pdf_chunked failingEnv ["chunk one".toList] [] (startState 1)).vectors
        = (startState 1).vectors :=
  embedding_failure_publishes_single_failure failingEnv
    ["chunk one".toList] [] (startState 1) rfl

/-- C4: the claimed forward-only/terminal invariant fails on the code. In the
fully successful 1-page run, the ledger receives the status writes
`extracting_text, generating_embeddings ×3, storing, completed, chunking,
extracting_text`: the write that the chunking listener performs after its
awaited `publish` (which has already driven embedding and storage to
`completed`) moves the job out of the terminal `completed` state, and the
extraction listener's write moves it backwards again. -/
theorem ledger_status_leaves_terminal_state :
    onePageRun.log.map Job.status =
      ["extracting_text", "generating_embeddings", "generating_embeddings",
       "generating_embeddings", "storing", "completed", "chunking",
       "extracting_text"] ∧
    forwardOnly ("queued" :: onePageRun.log.map Job.status) = false :=
  ⟨by decide, by decide⟩

/-- C5: in the 3-page run with `chunk_size = 500`, exactly 3 `PageExtracted`
events are published and the final ledger result reports
`pages_processed = 3`, but the progress write sequence is not strictly
increasing through the bands 10–40, 40–60, 60–90, 90–100: each page is driven
to `completed` (progress 100) before the next page starts, progress is then
incremented to 116 and falls back to 60. -/
theorem three_page_run_events_and_progress :
    threePageRun.published.countP Ev.isPageExtracted = 3 ∧
    threePageRun.log.map Job.progress =
      [10, 60, 60, 90, 95, 100, 106, 116, 60, 60, 90, 95, 100, 106, 116,
       60, 60, 90, 95, 100, 106, 116] ∧
    strictIncr (threePageRun.log.map Job.progress) = false ∧
    threePageRun.job.result.pages_processed = some 3 :=
  ⟨by decide, by decide, by decide, by decide⟩

/-- C6 counterexample: in the exhausted-pool run the job is marked `failed`
with its error set, but no event at all is published — in particular no
`IngestFailed{stage="extraction"}` — refuting the claim that the stage is
recorded and the failure republished like other stage failures. -/
theorem concurrency_failure_publishes_no_event :
    exhaustedRun.job.status = "failed" ∧
    exhaustedRun.job.error.isSome = true ∧
    exhaustedRun.published.countP Ev.isIngestFailed = 0 ∧
    exhaustedRun.published = [] :=
  ⟨rfl, rfl, rfl, rfl⟩

/-- C6 as amended: when the tier pool is exhausted, the job is immediately
marked `failed` with its `error` set to the concurrency message, but no stage
tag is recorded anywhere and no `IngestFailed` event is published (the
`ValueError` is caught before the outer `except` that publishes the
stage-tagged failure event). -/
theorem concurrency_failure_marks_failed_without_stage (env : Env)
    (s : PState) (h : s.sem ≤ 0) :
    (on_pdf_saved_to_gridfs env s).job.status = "failed" ∧
    (on_pdf_saved_to_gridfs env s).job.error
        = some (concurrencyMsg s.job.plan_name) ∧
    (on_pdf_saved_to_gridfs env s).published = s.published := by
  have hng : ¬ (s.sem > 0) := by omega
  simp only [on_pdf_saved_to_gridfs, if_neg hng]
  simp [stUpdate_failed_job, stUpdate_published]

/-- Witness for C6's amended theorem at the concrete exhausted-pool run. -/
theorem concurrency_failure_marks_failed_without_stage_witness :
    (startState 0).sem ≤ 0 ∧
    ((on_pdf_saved_to_gridfs (happyEnv ["Hello world".toList])
        (startState 0)).job.status = "failed" ∧
     (on_pdf_saved_to_gridfs (happyEnv ["Hello world".toList])
        (startState 0)).job.error
          = some (concurrencyMsg (startState 0).job.plan_name) ∧
     (on_pdf_saved_to_gridfs (happyEnv ["Hello world".toList])
        (startState 0)).published = (startState 0).published) :=
  ⟨by decide,
   concurrency_failure_marks_failed_without_stage
     (happyEnv ["Hello world".toList]) (startState 0) (by decide)⟩

/-- C2 counterexample: `chunk_text("aaaaa. bbbbb", 1)` (character budget
`1 * 4 = 4`) takes the sentence-splitting fallback, which splits on `". "`
and never restores the separators; the non-whitespace character `'.'` is
dropped, so concatenating the chunks does not reproduce the input up to
whitespace normalization. -/
theorem chunk_text_drops_sentence_separators :
    nw ((chunk_text ("aaaaa. bbbbb".toList) 1).flatten)
      ≠ nw ("aaaaa. bbbbb".toList) := by decide

/-- C2 as amended: `chunk_text` of the empty string is `[]` for every chunk
size, and chunking preserves the sequence of non-whitespace characters
provided no stripped paragraph exceeds the character budget
`chunk_size * 4` (so the separator-dropping sentence fallback never runs). -/
theorem chunk_text_empty_and_preserves_nonwhitespace :
    (∀ chunk_size : Nat, chunk_text [] chunk_size = []) ∧
    (∀ (text : Str) (chunk_size : Nat),
      (∀ p ∈ split2 '\n' '\n' text, (pstrip p).length ≤ chunk_size * 4) →
      nw ((chunk_text text chunk_size).flatten) = nw text) :=
  ⟨fun _ => rfl, chunk_text_nw⟩

/-- Witness for C2's amended theorem on a short two-paragraph text. -/
theorem chunk_text_preserves_nonwhitespace_witness :
    nw ((chunk_text ("hello world\n\nsecond part".toList) 500).flatten)
      = nw ("hello world\n\nsecond part".toList) :=
  chunk_text_empty_and_preserves_nonwhitespace.2
    ("hello world\n\nsecond part".toList) 500 (by decide)

/-- C7: for every registration order and every pattern of listener failures,
`publish` on the event's concrete type runs all synchronous listeners first,
in registration order, then the async fan-out in registration order; a
listener's raise does not prevent any later listener from running, and
`publish` itself returns normally with every listener's effect applied. -/
theorem publish_runs_all_listeners_in_order (etype : String)
    (syncSpec asyncSpec : List (Nat × Bool)) (log : List Nat) :
    (mkTagBus etype syncSpec asyncSpec).publish etype log
      = log ++ syncSpec.map Prod.fst ++ asyncSpec.map Prod.fst := by
  unfold EventBus.publish mkTagBus
  rw [subscribe_fold_async_keeps_sync, subscribe_fold_sync, if_pos rfl,
    subscribe_fold_async, if_pos rfl, subscribe_fold_sync_keeps_async]
  simp only [EventBus.empty, List.nil_append]
  rw [runIsolated_fold_tags, runIsolated_fold_tags]

/-- C8: `update_status` with `status="completed"` forces the stored progress
to 100 (overriding any progress argument) and sets `completed_at`, while
`status="failed"` sets `completed_at` but keeps the passed (or previous)
progress; both refresh `updated_at`. -/
theorem update_status_completed_and_failed (j : Job) (p : Option Int)
    (r : Option RMap) (er : Option String) (now : Nat) :
    (update_status j "completed" p r er now).progress = 100 ∧
    (update_status j "completed" p r er now).completedAt = some now ∧
    (update_status j "completed" p r er now).updatedAt = now ∧
    (update_status j "failed" p r er now).progress = p.getD j.progress ∧
    (update_status j "failed" p r er now).completedAt = some now ∧
    (update_status j "failed" p r er now).updatedAt = now := by
  cases p <;> cases r <;> cases er <;> exact ⟨rfl, rfl, rfl, rfl, rfl, rfl⟩

/-- C9: `validate` does not consume the upload: for a source whose stream is
at its start, the stream is still at offset 0 (with its bytes intact) when
`validate` returns — whether it returns normally or raises the size-limit
error, and whether the size came from the `size` attribute or from reading
the full stream and seeking back. -/
theorem validate_leaves_stream_at_start (source : UploadSource)
    (pdf_max_size_mb : Nat) (h : source.pos = 0) :
    ((validate source pdf_max_size_mb).1).pos = 0 ∧
    ((validate source pdf_max_size_mb).1).content = source.content := by
  obtain ⟨content, pos, sizeAttr⟩ := source
  dsimp only at h
  subst h
  unfold validate
  rcases sizeAttr with _ | n
  · dsimp only
    split <;> exact ⟨rfl, rfl⟩
  · dsimp only
    by_cases hn : n ≠ 0
    · rw [if_pos hn]
      split <;> exact ⟨rfl, rfl⟩
    · rw [if_neg hn]
      split <;> exact ⟨rfl, rfl⟩

/-- Witness for C9 on a concrete 3-byte source with no `size` attribute. -/
theorem validate_leaves_stream_at_start_witness :
    ((validate ⟨[1, 2, 3], 0, none⟩ 10).1).pos = 0 ∧
    ((validate ⟨[1, 2, 3], 0, none⟩ 10).1).content = [1, 2, 3] :=
  validate_leaves_stream_at_start ⟨[1, 2, 3], 0, none⟩ 10 rfl

/-- C10: a page whose text yields zero chunks (for example whitespace-only
text) is handled exactly like an empty page: the chunking listener returns
with the state untouched — no `Chunked` event, no `IngestFailed`, job status
and error unchanged. -/
theorem whitespace_only_page_skipped (env : Env)
    (page_number total_pages : Nat) (text : Str) (s : PState)
    (hz : chunk_text text s.job.chunk_size = []) :
    on_pdf_page_extracted env page_number total_pages text s = s ∧
    on_pdf_page_extracted env page_number total_pages [] s = s := by
  constructor
  · unfold on_pdf_page_extracted
    by_cases h0 : text.length = 0
    · rw [if_pos h0]
    · rw [if_neg h0]
      simp [hz]
  · rfl

/-- Witness for C10: a single-space page with the default `chunk_size`. -/
theorem whitespace_only_page_skipped_witness :
    chunk_text (" ".toList) (startState 1).job.chunk_size = [] ∧
    on_pdf_page_extracted (happyEnv []) 1 1 (" ".toList) (startState 1)
      = startState 1 :=
  ⟨by decide,
   (whitespace_only_page_skipped (happyEnv []) 1 1 (" ".toList)
     (startState 1) (by decide)).1⟩

end Sonqo
